import Mathlib

/-!
Application shell of `src/components/App.js`.

A shallow embedding of the `App` component: its session state, the route table
that `render` hands to the router `Switch`, and the two submission handlers
`loginUser` and `signupUser`.

The imported React components (`Header`, `Navigation`, `Login`, `Signup`,
`UsersContainer`) are opaque and appear as element tags.  The imported API
functions `login` and `profile` are parameters of the development.  Path
matching follows what `Route` and `Switch` of react-router-dom do for a literal
path (one without parameter, group or modifier characters): the pattern is
compiled by path-to-regexp with the options `end = exact`, `strict = false`,
`sensitive = false`.

The `Switch` sits inside the `Router` (a `BrowserRouter`), so what it matches
is the pathname of the router location, not the path of the browser URL: the
history library cuts the pathname out of the path and decodes it with
`decodeURI`, which throws `URIError` for an invalid percent-encoding.
`dispatch`, `navigate` and `boot` work on location pathnames; `createLocation`,
`dispatchUrl` and `mount` start from the path of the browser URL.

A handler runs from its call to its completion in one piece: submissions that
overlap in time are outside this development.  The events record what the
component itself does; console output of the API functions is not part of it.
-/

namespace App

/-! ## Path matching for literal route paths -/

/-- Canonical form of a character under the regular-expression flag `i`
(without the unicode flag), as far as it matters next to an ASCII literal: the
ASCII letters are compared by their upper case, and no character outside ASCII
has the canonical form of an ASCII character. -/
def canonicalize (c : Char) : Char := c.toUpper

/-- Consume the literal `route` at the start of `pathname`, comparing
characters in canonical form (`^route` with flag `i`).  The result is the part
of `pathname` that is left. -/
def stripLiteral : List Char → List Char → Option (List Char)
  | [], rest => some rest
  | _ :: _, [] => none
  | c :: cs, d :: ds =>
    if canonicalize c = canonicalize d then stripLiteral cs ds else none

/-- The literal of the compiled expression: in non-strict mode a delimiter at
the end of the path is removed before the optional-delimiter group is added. -/
def routeLiteral (path : String) : List Char :=
  if path.toList.getLast? = some '/' then path.toList.dropLast else path.toList

/-- Execution of the compiled expression on `pathname`, giving the matched text
(`match[0]`).  With `ending` the expression is `^route(?:\/(?=$))?$`, without it
`^route(?:\/(?=$))?(?=\/|$)`. -/
def regexpExec (route : List Char) (ending : Bool) (pathname : List Char) :
    Option (List Char) :=
  match stripLiteral route pathname with
  | none => none
  | some rest =>
    if rest = [] then some pathname
    else if rest = ['/'] then some pathname
    else if ending then none
    else if rest.head? = some '/' then
      some (pathname.take (pathname.length - rest.length))
    else none

/-- Result of a successful `matchPath`: the path used to match, the matched
part of the URL and whether it is the whole pathname.  A literal path has no
parameters, so `params` is always empty and is left out. -/
structure Match where
  path : String
  url : String
  isExact : Bool
  deriving DecidableEq

/-- The function `matchPath(pathname, { path, exact })` of react-router for a
literal `path`, with `strict` and `sensitive` left at their default `false`. -/
def matchPath (pathname : String) (path : String) (exact : Bool) : Option Match :=
  match regexpExec (routeLiteral path) exact pathname.toList with
  | none => none
  | some url =>
    let isExact := decide (pathname.toList = url)
    if exact && !isExact then none
    else some ⟨path, if path = "/" ∧ url = [] then "/" else String.mk url, isExact⟩

/-! ## Elements and the route table -/

/-- The bound methods of `App` that `render` passes down as `onSubmit`. -/
inductive Handler where
  | loginUser
  | signupUser
  deriving DecidableEq

/-- Elements that the children of the `Switch` produce. -/
inductive View where
  | Login (onSubmit : Handler)
  | Signup (onSubmit : Handler)
  | UsersContainer
  | Redirect (toPath : String)
  deriving DecidableEq

/-- A child of `Switch`.  `path` is `props.path || props.from`, which is absent
for a `Redirect` without `from`. -/
structure SwitchChild where
  path : Option String
  exact : Bool
  element : View
  deriving DecidableEq

/-- Component state of `App`; `none` stands for `null`. -/
structure State (V : Type) where
  currentUserId : Option V
  deriving DecidableEq

/-- The constructor: `this.state = { currentUserId: null }`. -/
def constructor {V : Type} : State V := ⟨none⟩

/-- Children of `Router` returned by `render`. -/
structure Rendered (V : Type) where
  navigationCurrentUserId : Option V
  switch : List SwitchChild

/-- The method `render`: `Navigation` receives `this.state.currentUserId`, and
the `Switch` has the three routes and the final `Redirect`. -/
def render {V : Type} (state : State V) : Rendered V :=
  { navigationCurrentUserId := state.currentUserId
    switch :=
      [ ⟨some "/login", true, View.Login Handler.loginUser⟩,
        ⟨some "/signup", true, View.Signup Handler.signupUser⟩,
        ⟨some "/users", false, View.UsersContainer⟩,
        ⟨none, false, View.Redirect "/login"⟩ ] }

/-- Whether `Switch` takes this child for `pathname`: a child with a path is
matched with `matchPath`, a child without one takes the match of the enclosing
router, which is always present. -/
def childMatches (pathname : String) (c : SwitchChild) : Bool :=
  match c.path with
  | none => true
  | some path => (matchPath pathname path c.exact).isSome

/-- The component `Switch`: the element of the first child that matches, or
nothing (`null`) when no child does. -/
def Switch (pathname : String) : List SwitchChild → Option View
  | [] => none
  | c :: cs => if childMatches pathname c then some c.element else Switch pathname cs

/-- Route dispatch of the rendered `App` at a location pathname, that is at the
pathname the router holds, which history has already decoded. -/
def dispatch {V : Type} (state : State V) (pathname : String) : Option View :=
  Switch pathname (render state).switch

/-! ## From the path of the browser URL to the location pathname -/

/-- Result of an evaluation that either gives a value or throws `URIError`. -/
inductive Completes (α : Type) where
  | value (a : α)
  | URIError
  deriving DecidableEq

/-- Value of a hexadecimal digit. -/
def hexValue (c : Char) : Option Nat :=
  if '0' ≤ c ∧ c ≤ '9' then some (c.toNat - '0'.toNat)
  else if 'a' ≤ c ∧ c ≤ 'f' then some (c.toNat - 'a'.toNat + 10)
  else if 'A' ≤ c ∧ c ≤ 'F' then some (c.toNat - 'A'.toNat + 10)
  else none

/-- The octet written by two hexadecimal digits. -/
def hexByte (a b : Char) : Option Nat :=
  match hexValue a, hexValue b with
  | some x, some y => some (16 * x + y)
  | _, _ => none

/-- The low six bits of the escaped octet `%ab` when its two highest bits are
`10`, as a continuation octet of UTF-8 must have them. -/
def continuationBits (a b : Char) : Option Nat :=
  match hexByte a b with
  | some B => if 0x80 ≤ B ∧ B < 0xC0 then some (B - 0x80) else none
  | none => none

/-- The character with value `V` that `n` octets encode, when they are a valid
UTF-8 encoding: not longer than needed, not a surrogate, not above 0x10FFFF. -/
def utf8CodePoint (n V : Nat) : Option Char :=
  let least := if n = 2 then 0x80 else if n = 3 then 0x800 else 0x10000
  if V < least then none
  else if 0xD800 ≤ V ∧ V ≤ 0xDFFF then none
  else if 0x10FFFF < V then none
  else some (Char.ofNat V)

/-- Put the decoded text `S` in front of the result for the rest. -/
def Completes.emit (S : List Char) : Completes (List Char) → Completes (List Char)
  | Completes.value R => Completes.value (S ++ R)
  | Completes.URIError => Completes.URIError

/-- The abstract operation `Decode(string, reservedSet)` of ECMAScript. -/
def Decode (reservedSet : List Char) : List Char → Completes (List Char)
  | [] => Completes.value []
  | '%' :: a :: b :: rest =>
    match hexByte a b with
    | none => Completes.URIError
    | some B =>
      if B < 0x80 then
        if Char.ofNat B ∈ reservedSet then (Decode reservedSet rest).emit ['%', a, b]
        else (Decode reservedSet rest).emit [Char.ofNat B]
      else if B < 0xC0 then Completes.URIError
      else if B < 0xE0 then
        match rest with
        | '%' :: c :: d :: rest2 =>
          match continuationBits c d with
          | some x =>
            match utf8CodePoint 2 ((B - 0xC0) * 0x40 + x) with
            | some C => (Decode reservedSet rest2).emit [C]
            | none => Completes.URIError
          | none => Completes.URIError
        | _ => Completes.URIError
      else if B < 0xF0 then
        match rest with
        | '%' :: c :: d :: '%' :: e :: f :: rest3 =>
          match continuationBits c d, continuationBits e f with
          | some x, some y =>
            match utf8CodePoint 3 (((B - 0xE0) * 0x40 + x) * 0x40 + y) with
            | some C => (Decode reservedSet rest3).emit [C]
            | none => Completes.URIError
          | _, _ => Completes.URIError
        | _ => Completes.URIError
      else if B < 0xF8 then
        match rest with
        | '%' :: c :: d :: '%' :: e :: f :: '%' :: g :: h :: rest4 =>
          match continuationBits c d, continuationBits e f, continuationBits g h with
          | some x, some y, some z =>
            match utf8CodePoint 4 ((((B - 0xF0) * 0x40 + x) * 0x40 + y) * 0x40 + z) with
            | some C => (Decode reservedSet rest4).emit [C]
            | none => Completes.URIError
          | _, _, _ => Completes.URIError
        | _ => Completes.URIError
      else Completes.URIError
  | '%' :: _ => Completes.URIError
  | c :: rest => (Decode reservedSet rest).emit [c]

/-- The characters that `decodeURI` leaves escaped: the reserved characters of
a URI and the number sign. -/
def uriReservedPlusHash : List Char :=
  [';', '/', '?', ':', '@', '&', '=', '+', '$', ',', '#']

/-- The global function `decodeURI`. -/
def decodeURI (uri : List Char) : Completes (List Char) :=
  Decode uriReservedPlusHash uri

/-- The pathname that `parsePath` of history cuts out of a path: an empty path
stands for "/", and the hash and the search are cut off. -/
def parsePath (path : String) : List Char :=
  let pathname := if path = "" then ['/'] else path.toList
  let pathname := pathname.takeWhile (fun c => c != '#')
  pathname.takeWhile (fun c => c != '?')

/-- The pathname of the location that `createLocation` of history makes of the
path of the browser URL when there is no prior location: the pathname is
decoded with `decodeURI`, an empty one becomes "/". -/
def createLocation (path : String) : Completes String :=
  match decodeURI (parsePath path) with
  | Completes.URIError => Completes.URIError
  | Completes.value pathname =>
    Completes.value (if pathname = [] then "/" else String.mk pathname)

/-- Route dispatch of the rendered `App` at the path of the browser URL: the
`BrowserRouter` makes the location with `createLocation`, and the `Switch` is
rendered at its pathname.  When `createLocation` throws, nothing is rendered. -/
def dispatchUrl {V : Type} (state : State V) (url : String) : Completes (Option View) :=
  match createLocation url with
  | Completes.URIError => Completes.URIError
  | Completes.value pathname => Completes.value (dispatch state pathname)

/-! ## Effects of the submission handlers -/

/-- How the promise returned by an API function settles.  `pending` is a
promise that never settles. -/
inductive Settled (V : Type) where
  | fulfilled (value : V)
  | rejected (reason : V)
  | pending
  deriving DecidableEq

/-- The imported functions `login` and `profile` of `../api/auth`.  They are
outside this component: each is an arbitrary function of its argument and of
the state `S` of the remote service, which it may change. -/
structure Api (S V : Type) where
  login : V → S → Settled V × S
  profile : S → Settled V × S

/-- A call of an API function, with its argument. -/
inductive ApiCall (V : Type) where
  | login (user : V)
  | profile
  deriving DecidableEq

/-- An argument of `console.log`: a string literal of the program or a value
that the program passes on. -/
inductive LogArg (V : Type) where
  | text (s : String)
  | value (v : V)
  deriving DecidableEq

/-- What the component does that can be observed, in the order it happens. -/
inductive Event (V : Type) where
  | called (c : ApiCall V)
  | settled (c : ApiCall V) (outcome : Settled V)
  | logged (args : List (LogArg V))
  deriving DecidableEq

/-- Everything a handler can read or write: the component state, the pathname
of the router location, the remote service, and the events so far (oldest
first). -/
structure World (S V : Type) where
  app : State V
  location : String
  remote : S
  events : List (Event V)

/-- How the body of a function ends: it returns (an async function fulfils its
promise), it throws `reason` (an async function rejects with it), or it stays
suspended at an `await` that never settles. -/
inductive Completion (V α : Type) where
  | normal (a : α)
  | abrupt (reason : V)
  | suspended
  deriving DecidableEq

/-- A function body: from a world to a completion and the world it leaves. -/
def Exec (S V α : Type) : Type := World S V → Completion V α × World S V

/-- Sequencing of statements: the rest runs only after a normal completion. -/
def Exec.bind {S V α β : Type} (t : Exec S V α) (f : α → Exec S V β) : Exec S V β :=
  fun w =>
    match t w with
    | (Completion.normal a, w1) => f a w1
    | (Completion.abrupt e, w1) => (Completion.abrupt e, w1)
    | (Completion.suspended, w1) => (Completion.suspended, w1)

instance {S V : Type} : Monad (Exec S V) where
  pure a := fun w => (Completion.normal a, w)
  bind := Exec.bind

/-- Append an event to the world. -/
def World.record {S V : Type} (w : World S V) (e : Event V) : World S V :=
  { w with events := w.events ++ [e] }

/-- The expression `await f(args)`: the call is made, and the body goes on with
the value once the promise is fulfilled; a rejection is thrown at the `await`. -/
def awaitCall {S V : Type} (c : ApiCall V) (f : S → Settled V × S) : Exec S V V :=
  fun w =>
    let w1 := w.record (Event.called c)
    match f w1.remote with
    | (Settled.fulfilled v, s) =>
      (Completion.normal v, { w1 with remote := s }.record (Event.settled c (Settled.fulfilled v)))
    | (Settled.rejected e, s) =>
      (Completion.abrupt e, { w1 with remote := s }.record (Event.settled c (Settled.rejected e)))
    | (Settled.pending, s) => (Completion.suspended, { w1 with remote := s })

/-- The statement `console.log(args)`. -/
def consoleLog {S V : Type} (args : List (LogArg V)) : Exec S V Unit :=
  fun w => (Completion.normal (), w.record (Event.logged args))

/-- The method `loginUser`. -/
def loginUser {S V : Type} (api : Api S V) (user : V) : Exec S V Unit := do
  let response ← awaitCall (ApiCall.login user) (api.login user)
  let userInfo ← awaitCall ApiCall.profile api.profile
  consoleLog [LogArg.value response, LogArg.value userInfo]

/-- The method `signupUser`. -/
def signupUser {S V : Type} (user : V) : Exec S V Unit :=
  consoleLog [LogArg.text "Signing Up User:", LogArg.value user]

/-- The API calls among the events, in order. -/
def calls {V : Type} : List (Event V) → List (ApiCall V)
  | [] => []
  | Event.called c :: es => c :: calls es
  | _ :: es => calls es

/-- The records written to the console among the events, in order. -/
def logs {V : Type} : List (Event V) → List (List (LogArg V))
  | [] => []
  | Event.logged args :: es => args :: logs es
  | _ :: es => logs es

/-! ## The running application -/

/-- The method behind an `onSubmit` property. -/
def Handler.invoke {S V : Type} (api : Api S V) : Handler → V → Exec S V Unit
  | Handler.loginUser => App.loginUser api
  | Handler.signupUser => App.signupUser

/-- What the user does: go to a location pathname, or submit the form on
display with a payload.  A navigation that history cannot decode throws and
makes no location, so it is no action. -/
inductive Action (V : Type) where
  | navigate (pathname : String)
  | submit (payload : V)
  deriving DecidableEq

/-- Going to a location pathname: when the `Switch` renders the `Redirect`, the
router moves on to its target. -/
def navigate {S V : Type} (pathname : String) (w : World S V) : World S V :=
  match dispatch w.app pathname with
  | some (View.Redirect target) => { w with location := target }
  | _ => { w with location := pathname }

/-- Submitting the form on display: `Login` and `Signup` call their `onSubmit`
with the payload; no other view has a form. -/
def submit {S V : Type} (api : Api S V) (payload : V) (w : World S V) : World S V :=
  match dispatch w.app w.location with
  | some (View.Login onSubmit) => (onSubmit.invoke api payload w).2
  | some (View.Signup onSubmit) => (onSubmit.invoke api payload w).2
  | _ => w

/-- One action of the user. -/
def step {S V : Type} (api : Api S V) (w : World S V) : Action V → World S V
  | Action.navigate pathname => navigate pathname w
  | Action.submit payload => submit api payload w

/-- The application right after it is mounted at a location pathname. -/
def boot {S V : Type} (remote : S) (pathname : String) : World S V :=
  navigate pathname ⟨constructor, pathname, remote, []⟩

/-- The application right after it is mounted at the path of the browser URL.
When `createLocation` throws, the `BrowserRouter` is not made and nothing is
mounted. -/
def mount {S V : Type} (remote : S) (url : String) : Completes (World S V) :=
  match createLocation url with
  | Completes.URIError => Completes.URIError
  | Completes.value pathname => Completes.value (boot remote pathname)

/-- The application after a sequence of actions. -/
def run {S V : Type} (api : Api S V) (w : World S V) (actions : List (Action V)) :
    World S V :=
  actions.foldl (step api) w

/-! ## Vocabulary of the statements and sample data -/

/-- `s` is the literal `lit` up to the case of ASCII letters. -/
def spells (lit : String) (s : List Char) : Prop :=
  s.map canonicalize = lit.toList.map canonicalize

/-- A payload with named fields. -/
abbrev Fields : Type := List (String × String)

/-- A sample API over a remote session flag: `login` rejects a payload without
fields and otherwise is fulfilled and opens the session; `profile` is fulfilled
in an open session and rejects otherwise. -/
def sampleApi : Api Bool Fields :=
  { login := fun user session =>
      if user = [] then (Settled.rejected [("error", "no credentials")], session)
      else (Settled.fulfilled [("token", "t1")], true)
    profile := fun session =>
      if session then (Settled.fulfilled [("name", "a")], session)
      else (Settled.rejected [("error", "unauthorized")], session) }

/-- The sample credentials. -/
def sampleCredentials : Fields := [("id", "a"), ("secret", "b")]

/-- The application at "/login" with a closed remote session and no events. -/
def sampleWorld : World Bool Fields := ⟨constructor, "/login", false, []⟩

end App

namespace App

theorem stripLiteral_eq_some (route pathname rest : List Char) :
    stripLiteral route pathname = some rest ↔
      ∃ pre, pathname = pre ++ rest ∧ pre.map canonicalize = route.map canonicalize := by
  induction route generalizing pathname with
  | nil =>
    constructor
    · intro h
      refine ⟨[], ?_, rfl⟩
      simpa [stripLiteral] using h
    · rintro ⟨pre, hp, hm⟩
      have : pre = [] := by simpa using hm
      subst this
      simp [stripLiteral, hp]
  | cons c cs ih =>
    cases pathname with
    | nil =>
      constructor
      · intro h
        simp [stripLiteral] at h
      · rintro ⟨pre, hp, hm⟩
        cases pre with
        | nil => simp at hm
        | cons a as => simp at hp
    | cons d ds =>
      constructor
      · intro h
        by_cases hcd : canonicalize c = canonicalize d
        · rw [stripLiteral, if_pos hcd] at h
          obtain ⟨pre, hp, hm⟩ := (ih ds).1 h
          exact ⟨d :: pre, by simp [hp], by simp [hm, hcd]⟩
        · rw [stripLiteral, if_neg hcd] at h
          exact absurd h (by simp)
      · rintro ⟨pre, hp, hm⟩
        cases pre with
        | nil => simp at hm
        | cons a as =>
          simp only [List.cons_append, List.cons.injEq] at hp
          simp only [List.map_cons, List.cons.injEq] at hm
          obtain ⟨rfl, hds⟩ := hp
          rw [stripLiteral, if_pos hm.1.symm]
          exact (ih ds).2 ⟨as, hds, hm.2⟩

theorem regexpExec_isSome (route : List Char) (ending : Bool) (pathname : List Char) :
    (regexpExec route ending pathname).isSome = true ↔
      ∃ rest, stripLiteral route pathname = some rest ∧
        (rest = [] ∨ rest = ['/'] ∨ (ending = false ∧ rest.head? = some '/')) := by
  unfold regexpExec
  cases h : stripLiteral route pathname with
  | none => simp
  | some rest =>
    by_cases h1 : rest = []
    · simp [h1]
    · by_cases h2 : rest = ['/']
      · simp [h2]
      · cases ending with
        | true => simp [h1, h2]
        | false =>
          by_cases h3 : rest.head? = some '/'
          · simp [h1, h2, h3]
          · simp [h1, h2, h3]

theorem regexpExec_ending (route pathname url : List Char)
    (h : regexpExec route true pathname = some url) : url = pathname := by
  unfold regexpExec at h
  cases hs : stripLiteral route pathname with
  | none => simp [hs] at h
  | some rest =>
    rw [hs] at h
    by_cases h1 : rest = []
    · simp [h1] at h; exact h.symm
    · by_cases h2 : rest = ['/']
      · simp [h2] at h; exact h.symm
      · simp [h1, h2] at h

theorem matchPath_isSome (pathname path : String) (exact : Bool) :
    (matchPath pathname path exact).isSome = true ↔
      ∃ rest, stripLiteral (routeLiteral path) pathname.toList = some rest ∧
        (rest = [] ∨ rest = ['/'] ∨ (exact = false ∧ rest.head? = some '/')) := by
  rw [← regexpExec_isSome]
  unfold matchPath
  cases h : regexpExec (routeLiteral path) exact pathname.toList with
  | none => simp
  | some url =>
    cases exact with
    | false => simp
    | true =>
      have := regexpExec_ending _ _ _ h
      simp [this]


theorem childMatches_iff (pathname path : String) (exact : Bool) (element : View) :
    childMatches pathname ⟨some path, exact, element⟩ = true ↔
      ∃ pre rest, pathname.toList = pre ++ rest ∧
        pre.map canonicalize = (routeLiteral path).map canonicalize ∧
        (rest = [] ∨ rest = ['/'] ∨ (exact = false ∧ rest.head? = some '/')) := by
  simp only [childMatches, matchPath_isSome, stripLiteral_eq_some]
  constructor
  · rintro ⟨rest, ⟨pre, hp, hm⟩, hr⟩
    exact ⟨pre, rest, hp, hm, hr⟩
  · rintro ⟨pre, rest, hp, hm, hr⟩
    exact ⟨rest, ⟨pre, hp, hm⟩, hr⟩

theorem dispatch_eq {V : Type} (state : State V) (pathname : String) :
    dispatch state pathname =
      if childMatches pathname ⟨some "/login", true, View.Login Handler.loginUser⟩ then
        some (View.Login Handler.loginUser)
      else if childMatches pathname ⟨some "/signup", true, View.Signup Handler.signupUser⟩ then
        some (View.Signup Handler.signupUser)
      else if childMatches pathname ⟨some "/users", false, View.UsersContainer⟩ then
        some View.UsersContainer
      else some (View.Redirect "/login") := by
  simp [dispatch, render, Switch, childMatches]

theorem routeLiteral_login : routeLiteral "/login" = "/login".toList := by decide

theorem routeLiteral_signup : routeLiteral "/signup" = "/signup".toList := by decide

theorem routeLiteral_users : routeLiteral "/users" = "/users".toList := by decide

theorem dispatch_login {V : Type} (state : State V) :
    dispatch state "/login" = some (View.Login Handler.loginUser) := by
  rw [dispatch_eq]; decide

theorem dispatch_signup {V : Type} (state : State V) :
    dispatch state "/signup" = some (View.Signup Handler.signupUser) := by
  rw [dispatch_eq]; decide

theorem dispatch_users {V : Type} (state : State V) :
    dispatch state "/users" = some View.UsersContainer := by
  rw [dispatch_eq]; decide

theorem Switch_first_match (pathname : String) (children : List SwitchChild)
    (h : ∃ c ∈ children, childMatches pathname c = true) :
    ∃ pre c post, children = pre ++ c :: post ∧ childMatches pathname c = true ∧
      (∀ d ∈ pre, childMatches pathname d = false) ∧
      Switch pathname children = some c.element := by
  induction children with
  | nil => simp at h
  | cons a as ih =>
    by_cases ha : childMatches pathname a = true
    · exact ⟨[], a, as, rfl, ha, by simp, by simp [Switch, ha]⟩
    · have h2 : ∃ c ∈ as, childMatches pathname c = true := by
        obtain ⟨c, hc, hm⟩ := h
        rcases List.mem_cons.1 hc with rfl | hc
        · exact absurd hm ha
        · exact ⟨c, hc, hm⟩
      obtain ⟨pre, c, post, he, hm, hpre, hs⟩ := ih h2
      refine ⟨a :: pre, c, post, by simp [he], hm, ?_, by simp [Switch, ha, hs]⟩
      intro d hd
      rcases List.mem_cons.1 hd with rfl | hd
      · simpa using ha
      · exact hpre d hd

/-- At every location pathname the Switch selects exactly one element; that
element is the Login view, the Signup view, the Users container or the redirect
to "/login"; and it is the element of the first child, in the declared order,
that matches. -/
theorem dispatch_first_match {V : Type} (state : State V) (pathname : String) :
    (∃! v, dispatch state pathname = some v) ∧
    (∀ v, dispatch state pathname = some v →
      v = View.Login Handler.loginUser ∨ v = View.Signup Handler.signupUser ∨
      v = View.UsersContainer ∨ v = View.Redirect "/login") ∧
    (∃ pre c post, (render state).switch = pre ++ c :: post ∧
      childMatches pathname c = true ∧ (∀ d ∈ pre, childMatches pathname d = false) ∧
      dispatch state pathname = some c.element) := by
  have hex : ∃ c ∈ (render state).switch, childMatches pathname c = true :=
    ⟨⟨none, false, View.Redirect "/login"⟩, by simp [render], rfl⟩
  obtain ⟨pre, c, post, he, hm, hpre, hs⟩ := Switch_first_match pathname _ hex
  have hc : c ∈ (render state).switch := by rw [he]; simp
  have hfour : c.element = View.Login Handler.loginUser ∨
      c.element = View.Signup Handler.signupUser ∨
      c.element = View.UsersContainer ∨ c.element = View.Redirect "/login" := by
    simp only [render, List.mem_cons, List.mem_singleton, List.not_mem_nil, or_false] at hc
    rcases hc with rfl | rfl | rfl | rfl <;> simp
  have hd : dispatch state pathname = some c.element := hs
  refine ⟨⟨c.element, hd, ?_⟩, ?_, ⟨pre, c, post, he, hm, hpre, hd⟩⟩
  · intro v hv
    rw [hd] at hv
    exact (Option.some.inj hv).symm
  · intro v hv
    rw [hd] at hv
    rw [← Option.some.inj hv]
    exact hfour

theorem dispatchUrl_value {V : Type} (state : State V) (url pathname : String)
    (h : createLocation url = Completes.value pathname) :
    dispatchUrl state url = Completes.value (dispatch state pathname) := by
  simp only [dispatchUrl, h]

theorem dispatchUrl_URIError {V : Type} (state : State V) (url : String)
    (h : createLocation url = Completes.URIError) :
    dispatchUrl state url = Completes.URIError := by
  simp only [dispatchUrl, h]

theorem createLocation_login : createLocation "/login" = Completes.value "/login" := by
  decide

theorem createLocation_signup : createLocation "/signup" = Completes.value "/signup" := by
  decide

theorem createLocation_users : createLocation "/users" = Completes.value "/users" := by
  decide

/-- Sample URL paths: an escaped letter is decoded before the routes are
matched, the search is no part of the pathname, and an escaped "/" stays
escaped. -/
theorem dispatchUrl_samples :
    dispatchUrl (constructor : State Unit) "/%6Cogin" =
      Completes.value (some (View.Login Handler.loginUser)) ∧
    dispatchUrl (constructor : State Unit) "/signup/?next=1" =
      Completes.value (some (View.Signup Handler.signupUser)) ∧
    dispatchUrl (constructor : State Unit) "/users%2F5" =
      Completes.value (some (View.Redirect "/login")) ∧
    dispatchUrl (constructor : State Unit) "/%E4%BD%A0" =
      Completes.value (some (View.Redirect "/login")) := by
  refine ⟨by decide, by decide, by decide, by decide⟩

/-- C1, as the claim states it, fails at the URL path "/%": its
percent-encoding is invalid, the router throws `URIError` when it makes the
location, and no outcome at all is selected. -/
theorem dispatchUrl_undecodable_selects_none :
    createLocation "/%" = Completes.URIError ∧
    dispatchUrl (constructor : State Unit) "/%" = Completes.URIError ∧
    ¬ ∃ v, dispatchUrl (constructor : State Unit) "/%" = Completes.value (some v) := by
  have h : dispatchUrl (constructor : State Unit) "/%" = Completes.URIError := by decide
  refine ⟨by decide, h, ?_⟩
  rintro ⟨v, hv⟩
  rw [h] at hv
  exact absurd hv (by simp)

/-- C1, amended: route dispatch is single-valued, and total on the URL paths
that the router can decode.  For every URL path either `createLocation` throws
`URIError` and nothing is selected, or it gives a pathname and the Switch
selects exactly one element at it; that element is the Login view, the Signup
view, the Users container or the redirect to "/login", and it is the element
of the first child, in the declared order, that matches the pathname. -/
theorem dispatchUrl_selects_exactly_one {V : Type} (state : State V) (url : String) :
    (createLocation url = Completes.URIError ∧
      dispatchUrl state url = Completes.URIError) ∨
    (∃ pathname, createLocation url = Completes.value pathname ∧
      (∃! v, dispatchUrl state url = Completes.value (some v)) ∧
      (∀ v, dispatchUrl state url = Completes.value (some v) →
        v = View.Login Handler.loginUser ∨ v = View.Signup Handler.signupUser ∨
        v = View.UsersContainer ∨ v = View.Redirect "/login") ∧
      (∃ pre c post, (render state).switch = pre ++ c :: post ∧
        childMatches pathname c = true ∧ (∀ d ∈ pre, childMatches pathname d = false) ∧
        dispatchUrl state url = Completes.value (some c.element))) := by
  cases h : createLocation url with
  | URIError => exact Or.inl ⟨rfl, dispatchUrl_URIError state url h⟩
  | value pathname =>
    refine Or.inr ⟨pathname, rfl, ?_⟩
    rw [dispatchUrl_value state url pathname h]
    obtain ⟨⟨v, hv, huniq⟩, hfour, pre, c, post, he, hm, hpre, hd⟩ :=
      dispatch_first_match state pathname
    refine ⟨⟨v, by rw [hv], ?_⟩, ?_, ⟨pre, c, post, he, hm, hpre, by rw [hd]⟩⟩
    · intro y hy
      exact huniq y (Completes.value.inj hy)
    · intro y hy
      exact hfour y (Completes.value.inj hy)

/-- C2, as the claim states it, fails at "/users/5": this URL path is none of
the three named paths, and dispatch yields the Users container there, not the
redirect; so it is not true that every path other than the three named ones
yields the redirect. -/
theorem redirect_for_every_other_path_fails :
    ("/users/5" ≠ "/login" ∧ "/users/5" ≠ "/signup" ∧ "/users/5" ≠ "/users") ∧
    dispatchUrl (constructor : State Unit) "/users/5" =
      Completes.value (some View.UsersContainer) ∧
    dispatchUrl (constructor : State Unit) "/users/5" ≠
      Completes.value (some (View.Redirect "/login")) ∧
    ¬ (∀ url : String, url ≠ "/login" → url ≠ "/signup" → url ≠ "/users" →
        dispatchUrl (constructor : State Unit) url =
          Completes.value (some (View.Redirect "/login"))) := by
  have h5 : dispatchUrl (constructor : State Unit) "/users/5" =
      Completes.value (some View.UsersContainer) := by
    decide
  refine ⟨⟨by decide, by decide, by decide⟩, h5, ?_, ?_⟩
  · rw [h5]
    simp
  · intro h
    have hr := h "/users/5" (by decide) (by decide) (by decide)
    rw [h5] at hr
    simp at hr

/-- Dispatch at a location pathname yields the redirect to "/login" exactly
when the pathname is neither "/login" or "/signup" (in any letter case, with
or without one final "/") nor "/users" (in any letter case) on its own or
followed by "/" and anything. -/
theorem dispatch_redirect_iff_pathname {V : Type} (state : State V) (pathname : String) :
    (dispatch state pathname = some (View.Redirect "/login") ↔
      ¬ ∃ pre rest, pathname.toList = pre ++ rest ∧
        (((spells "/login" pre ∨ spells "/signup" pre) ∧ (rest = [] ∨ rest = ['/'])) ∨
          (spells "/users" pre ∧ (rest = [] ∨ rest.head? = some '/')))) ∧
    dispatch state "/login" = some (View.Login Handler.loginUser) ∧
    dispatch state "/signup" = some (View.Signup Handler.signupUser) ∧
    dispatch state "/users" = some View.UsersContainer := by
  refine ⟨?_, dispatch_login state, dispatch_signup state, dispatch_users state⟩
  have r1 := routeLiteral_login
  have r2 := routeLiteral_signup
  have r3 := routeLiteral_users
  have h1 := childMatches_iff pathname "/login" true (View.Login Handler.loginUser)
  have h2 := childMatches_iff pathname "/signup" true (View.Signup Handler.signupUser)
  have h3 := childMatches_iff pathname "/users" false View.UsersContainer
  rw [r1] at h1
  rw [r2] at h2
  rw [r3] at h3
  rw [dispatch_eq]
  generalize childMatches pathname ⟨some "/login", true, View.Login Handler.loginUser⟩ = b1
    at h1 ⊢
  generalize childMatches pathname ⟨some "/signup", true, View.Signup Handler.signupUser⟩ = b2
    at h2 ⊢
  generalize childMatches pathname ⟨some "/users", false, View.UsersContainer⟩ = b3 at h3 ⊢
  have key : (∃ pre rest, pathname.toList = pre ++ rest ∧
        (((spells "/login" pre ∨ spells "/signup" pre) ∧ (rest = [] ∨ rest = ['/'])) ∨
          (spells "/users" pre ∧ (rest = [] ∨ rest.head? = some '/')))) ↔
      (b1 = true ∨ b2 = true ∨ b3 = true) := by
    rw [h1, h2, h3]
    constructor
    · rintro ⟨pre, rest, hp, ⟨hl | hs, hr⟩ | ⟨hu, hr⟩⟩
      · exact Or.inl ⟨pre, rest, hp, hl, hr.elim Or.inl (fun h => Or.inr (Or.inl h))⟩
      · exact Or.inr (Or.inl ⟨pre, rest, hp, hs, hr.elim Or.inl (fun h => Or.inr (Or.inl h))⟩)
      · refine Or.inr (Or.inr ⟨pre, rest, hp, hu, ?_⟩)
        rcases hr with hr | hr
        · exact Or.inl hr
        · exact Or.inr (Or.inr ⟨rfl, hr⟩)
    · rintro (⟨pre, rest, hp, hl, hr⟩ | ⟨pre, rest, hp, hl, hr⟩ | ⟨pre, rest, hp, hl, hr⟩)
      · refine ⟨pre, rest, hp, Or.inl ⟨Or.inl hl, ?_⟩⟩
        rcases hr with hr | hr | ⟨hf, _⟩
        · exact Or.inl hr
        · exact Or.inr hr
        · exact absurd hf (by simp)
      · refine ⟨pre, rest, hp, Or.inl ⟨Or.inr hl, ?_⟩⟩
        rcases hr with hr | hr | ⟨hf, _⟩
        · exact Or.inl hr
        · exact Or.inr hr
        · exact absurd hf (by simp)
      · refine ⟨pre, rest, hp, Or.inr ⟨hl, ?_⟩⟩
        rcases hr with hr | hr | ⟨_, hr⟩
        · exact Or.inl hr
        · exact Or.inr (by simp [hr])
        · exact Or.inr hr
  rw [key]
  cases b1 <;> cases b2 <;> cases b3 <;> simp


/-- C2, amended: dispatch yields the redirect to "/login" exactly for the URL
paths that the router can decode and whose decoded pathname is neither "/login"
or "/signup" (in any letter case, with or without one final "/") nor "/users"
(in any letter case) on its own or followed by "/" and anything; and for none
of "/login", "/signup", "/users" does it yield the redirect. -/
theorem dispatchUrl_redirect_iff {V : Type} (state : State V) (url : String) :
    (dispatchUrl state url = Completes.value (some (View.Redirect "/login")) ↔
      ∃ pathname, createLocation url = Completes.value pathname ∧
        ¬ ∃ pre rest, pathname.toList = pre ++ rest ∧
          (((spells "/login" pre ∨ spells "/signup" pre) ∧ (rest = [] ∨ rest = ['/'])) ∨
            (spells "/users" pre ∧ (rest = [] ∨ rest.head? = some '/')))) ∧
    dispatchUrl state "/login" = Completes.value (some (View.Login Handler.loginUser)) ∧
    dispatchUrl state "/signup" = Completes.value (some (View.Signup Handler.signupUser)) ∧
    dispatchUrl state "/users" = Completes.value (some View.UsersContainer) := by
  refine ⟨?_, ?_, ?_, ?_⟩
  · cases h : createLocation url with
    | URIError =>
      rw [dispatchUrl_URIError state url h]
      constructor
      · intro hd
        exact absurd hd (by simp)
      · rintro ⟨pathname, hp, _⟩
        exact absurd hp (by simp)
    | value pathname =>
      rw [dispatchUrl_value state url pathname h]
      constructor
      · intro hd
        exact ⟨pathname, rfl,
          (dispatch_redirect_iff_pathname state pathname).1.1 (Completes.value.inj hd)⟩
      · rintro ⟨q, hq, hn⟩
        have hqp : pathname = q := Completes.value.inj hq
        subst hqp
        rw [(dispatch_redirect_iff_pathname state pathname).1.2 hn]
  · rw [dispatchUrl_value state _ _ createLocation_login, dispatch_login]
  · rw [dispatchUrl_value state _ _ createLocation_signup, dispatch_signup]
  · rw [dispatchUrl_value state _ _ createLocation_users, dispatch_users]

theorem toList_users_sub (sub : String) :
    ("/users/" ++ sub).toList = '/' :: 'u' :: 's' :: 'e' :: 'r' :: 's' :: '/' :: sub.toList := rfl

theorem toList_login_sub (sub : String) :
    ("/login/" ++ sub).toList = '/' :: 'l' :: 'o' :: 'g' :: 'i' :: 'n' :: '/' :: sub.toList := rfl

theorem toList_signup_sub (sub : String) :
    ("/signup/" ++ sub).toList =
      '/' :: 's' :: 'i' :: 'g' :: 'n' :: 'u' :: 'p' :: '/' :: sub.toList := rfl

theorem toList_eq_nil (s : String) : s.toList = [] ↔ s = "" := by
  constructor
  · intro h
    cases s with
    | mk data =>
      simp only [String.toList] at h
      subst h
      rfl
  · rintro rfl
    rfl

theorem dispatch_users_sub {V : Type} (state : State V) (sub : String) :
    dispatch state ("/users/" ++ sub) = some View.UsersContainer := by
  simp [dispatch, render, Switch, childMatches, matchPath, regexpExec, routeLiteral_login,
    routeLiteral_signup, routeLiteral_users, toList_users_sub, stripLiteral, canonicalize]
  by_cases h : sub.data = [] <;> simp [h]

theorem dispatch_login_sub {V : Type} (state : State V) (seg : String) (hseg : seg ≠ "") :
    dispatch state ("/login/" ++ seg) = some (View.Redirect "/login") := by
  have h : ¬ seg.data = [] := fun h => hseg ((toList_eq_nil seg).1 h)
  simp [dispatch, render, Switch, childMatches, matchPath, regexpExec, routeLiteral_login,
    routeLiteral_signup, routeLiteral_users, toList_login_sub, stripLiteral, canonicalize, h]

theorem dispatch_signup_sub {V : Type} (state : State V) (seg : String) (hseg : seg ≠ "") :
    dispatch state ("/signup/" ++ seg) = some (View.Redirect "/login") := by
  have h : ¬ seg.data = [] := fun h => hseg ((toList_eq_nil seg).1 h)
  simp [dispatch, render, Switch, childMatches, matchPath, regexpExec, routeLiteral_login,
    routeLiteral_signup, routeLiteral_users, toList_signup_sub, stripLiteral, canonicalize, h]

/-- C3: the "/users" route matches by its beginning, "/login" and "/signup"
match exactly.  Every path that is "/users" or begins with "/users/" yields the
Users container; every path that extends "/login" or "/signup" by "/" and a
non-empty further part yields neither the Login nor the Signup view. -/
theorem users_by_beginning_login_signup_exact {V : Type} (state : State V)
    (pathname : String) :
    ((pathname = "/users" ∨ ∃ sub, pathname = "/users/" ++ sub) →
      dispatch state pathname = some View.UsersContainer) ∧
    (∀ seg, seg ≠ "" → (pathname = "/login/" ++ seg ∨ pathname = "/signup/" ++ seg) →
      ∀ onSubmit, dispatch state pathname ≠ some (View.Login onSubmit) ∧
        dispatch state pathname ≠ some (View.Signup onSubmit)) := by
  constructor
  · rintro (rfl | ⟨sub, rfl⟩)
    · exact dispatch_users state
    · exact dispatch_users_sub state sub
  · rintro seg hseg (rfl | rfl) onSubmit
    · rw [dispatch_login_sub state seg hseg]
      simp
    · rw [dispatch_signup_sub state seg hseg]
      simp

/-- C3 at concrete paths: "/users/42/edit" yields the Users container and
"/login/x" yields neither form. -/
theorem users_by_beginning_login_signup_exact_witness :
    dispatch (constructor : State Unit) "/users/42/edit" = some View.UsersContainer ∧
    dispatch (constructor : State Unit) "/login/x" ≠ some (View.Login Handler.loginUser) ∧
    dispatch (constructor : State Unit) "/login/x" ≠ some (View.Signup Handler.signupUser) :=
  ⟨(users_by_beginning_login_signup_exact constructor "/users/42/edit").1
      (Or.inr ⟨"42/edit", by decide⟩),
    ((users_by_beginning_login_signup_exact constructor "/login/x").2 "x" (by decide)
      (Or.inl (by decide)) Handler.loginUser).1,
    ((users_by_beginning_login_signup_exact constructor "/login/x").2 "x" (by decide)
      (Or.inl (by decide)) Handler.signupUser).2⟩


theorem calls_append {V : Type} (es fs : List (Event V)) :
    calls (es ++ fs) = calls es ++ calls fs := by
  induction es with
  | nil => rfl
  | cons e es ih => cases e <;> simp [calls, ih]

theorem logs_append {V : Type} (es fs : List (Event V)) :
    logs (es ++ fs) = logs es ++ logs fs := by
  induction es with
  | nil => rfl
  | cons e es ih => cases e <;> simp [logs, ih]

/-- The three ways `loginUser` can go, by how `login` and then `profile`
settle. -/
theorem loginUser_eq {S V : Type} (api : Api S V) (user : V) (w : World S V) :
    loginUser api user w =
      match api.login user w.remote with
      | (Settled.fulfilled response, s1) =>
        match api.profile s1 with
        | (Settled.fulfilled userInfo, s2) =>
          (Completion.normal (),
            { w with
              remote := s2
              events := w.events ++
                [Event.called (ApiCall.login user),
                  Event.settled (ApiCall.login user) (Settled.fulfilled response),
                  Event.called ApiCall.profile,
                  Event.settled ApiCall.profile (Settled.fulfilled userInfo),
                  Event.logged [LogArg.value response, LogArg.value userInfo]] })
        | (Settled.rejected e, s2) =>
          (Completion.abrupt e,
            { w with
              remote := s2
              events := w.events ++
                [Event.called (ApiCall.login user),
                  Event.settled (ApiCall.login user) (Settled.fulfilled response),
                  Event.called ApiCall.profile,
                  Event.settled ApiCall.profile (Settled.rejected e)] })
        | (Settled.pending, s2) =>
          (Completion.suspended,
            { w with
              remote := s2
              events := w.events ++
                [Event.called (ApiCall.login user),
                  Event.settled (ApiCall.login user) (Settled.fulfilled response),
                  Event.called ApiCall.profile] })
      | (Settled.rejected e, s1) =>
        (Completion.abrupt e,
          { w with
            remote := s1
            events := w.events ++
              [Event.called (ApiCall.login user),
                Event.settled (ApiCall.login user) (Settled.rejected e)] })
      | (Settled.pending, s1) =>
        (Completion.suspended,
          { w with
            remote := s1
            events := w.events ++ [Event.called (ApiCall.login user)] }) := by
  simp only [loginUser, bind, Exec.bind, awaitCall, consoleLog, World.record]
  rcases hl : api.login user w.remote with ⟨ol, s1⟩
  cases ol with
  | fulfilled response =>
    simp only []
    rcases hp : api.profile s1 with ⟨op, s2⟩
    cases op <;> simp [hp]
  | rejected e => simp
  | pending => simp


theorem signupUser_eq {S V : Type} (user : V) (w : World S V) :
    signupUser user w =
      (Completion.normal (),
        { w with
          events := w.events ++ [Event.logged [LogArg.text "Signing Up User:", LogArg.value user]] }) :=
  rfl

theorem loginUser_app {S V : Type} (api : Api S V) (user : V) (w : World S V) :
    (loginUser api user w).2.app = w.app ∧ (loginUser api user w).2.location = w.location := by
  rw [loginUser_eq]
  rcases api.login user w.remote with ⟨ol, s1⟩
  cases ol with
  | fulfilled response =>
    simp only []
    rcases api.profile s1 with ⟨op, s2⟩
    cases op <;> simp
  | rejected e => simp
  | pending => simp

theorem invoke_app {S V : Type} (api : Api S V) (h : Handler) (payload : V) (w : World S V) :
    (h.invoke api payload w).2.app = w.app := by
  cases h with
  | loginUser => exact (loginUser_app api payload w).1
  | signupUser => rfl

theorem step_app {S V : Type} (api : Api S V) (w : World S V) (a : Action V) :
    (step api w a).app = w.app := by
  cases a with
  | navigate pathname =>
    simp only [step, navigate]
    split <;> rfl
  | submit payload =>
    simp only [step, submit]
    split
    · exact invoke_app api _ payload w
    · exact invoke_app api _ payload w
    · rfl

theorem run_app {S V : Type} (api : Api S V) (w : World S V) (actions : List (Action V)) :
    (run api w actions).app = w.app := by
  induction actions generalizing w with
  | nil => rfl
  | cons a as ih =>
    simp only [run, List.foldl_cons] at ih ⊢
    rw [ih, step_app]

theorem boot_app {S V : Type} (remote : S) (pathname : String) :
    (boot remote pathname : World S V).app = constructor := by
  simp only [boot, navigate]
  split <;> rfl

theorem mount_app {S V : Type} (remote : S) (url : String) (w : World S V)
    (h : mount remote url = Completes.value w) : w.app = constructor := by
  unfold mount at h
  cases hc : createLocation url with
  | URIError =>
    rw [hc] at h
    exact absurd h (by simp)
  | value pathname =>
    rw [hc] at h
    rw [← Completes.value.inj h]
    exact boot_app remote pathname

/-- The running application does invoke the handlers: mounted at "/", it is
redirected to "/login"; a submission there calls `loginUser`, and a submission
at "/signup" calls `signupUser`. -/
theorem run_sample :
    (boot false "/" : World Bool Fields).location = "/login" ∧
    (run sampleApi (boot false "/")
        [Action.submit sampleCredentials, Action.navigate "/signup",
          Action.submit [("id", "x")], Action.navigate "/users/7",
          Action.submit [("id", "y")]]).events =
      [Event.called (ApiCall.login sampleCredentials),
        Event.settled (ApiCall.login sampleCredentials) (Settled.fulfilled [("token", "t1")]),
        Event.called ApiCall.profile,
        Event.settled ApiCall.profile (Settled.fulfilled [("name", "a")]),
        Event.logged [LogArg.value [("token", "t1")], LogArg.value [("name", "a")]],
        Event.logged [LogArg.text "Signing Up User:", LogArg.value [("id", "x")]]] := by
  constructor <;> decide

/-- C4: with `login` and `profile` both fulfilled, one invocation of
`loginUser(u)` adds to the events, in this order: the call `login(u)`, the
settlement of that call, the call `profile()`, its settlement, and the console
record.  The API calls it makes are exactly `login(u)` followed by `profile()`. -/
theorem loginUser_calls_login_then_profile {S V : Type} (api : Api S V) (user : V)
    (w : World S V) (response userInfo : V) (s1 s2 : S)
    (hlogin : api.login user w.remote = (Settled.fulfilled response, s1))
    (hprofile : api.profile s1 = (Settled.fulfilled userInfo, s2)) :
    (loginUser api user w).2.events = w.events ++
      [Event.called (ApiCall.login user),
        Event.settled (ApiCall.login user) (Settled.fulfilled response),
        Event.called ApiCall.profile,
        Event.settled ApiCall.profile (Settled.fulfilled userInfo),
        Event.logged [LogArg.value response, LogArg.value userInfo]] ∧
    calls (loginUser api user w).2.events =
      calls w.events ++ [ApiCall.login user, ApiCall.profile] := by
  rw [loginUser_eq, hlogin]
  simp only [hprofile, calls_append]
  simp [calls]

/-- C4 at the sample credentials: `login` and `profile` of the sample API are
both fulfilled, and the calls are `login` with those credentials, then
`profile`. -/
theorem loginUser_calls_login_then_profile_witness :
    (loginUser sampleApi sampleCredentials sampleWorld).2.events =
      [Event.called (ApiCall.login sampleCredentials),
        Event.settled (ApiCall.login sampleCredentials) (Settled.fulfilled [("token", "t1")]),
        Event.called ApiCall.profile,
        Event.settled ApiCall.profile (Settled.fulfilled [("name", "a")]),
        Event.logged [LogArg.value [("token", "t1")], LogArg.value [("name", "a")]]] ∧
    calls (loginUser sampleApi sampleCredentials sampleWorld).2.events =
      [ApiCall.login sampleCredentials, ApiCall.profile] :=
  loginUser_calls_login_then_profile sampleApi sampleCredentials sampleWorld
    [("token", "t1")] [("name", "a")] true true rfl rfl

/-- C5: when `login` rejects, `loginUser(u)` makes the call `login(u)` and no
other: the events it adds are that call and its rejection, and `profile` is not
among the calls. -/
theorem loginUser_login_rejected_no_profile {S V : Type} (api : Api S V) (user : V)
    (w : World S V) (reason : V) (s1 : S)
    (hlogin : api.login user w.remote = (Settled.rejected reason, s1)) :
    (loginUser api user w).2.events = w.events ++
      [Event.called (ApiCall.login user),
        Event.settled (ApiCall.login user) (Settled.rejected reason)] ∧
    calls (loginUser api user w).2.events = calls w.events ++ [ApiCall.login user] := by
  rw [loginUser_eq, hlogin]
  simp only [calls_append]
  simp [calls]

/-- C5 at an empty payload, which `login` of the sample API rejects: the only
call is `login`. -/
theorem loginUser_login_rejected_no_profile_witness :
    (loginUser sampleApi [] sampleWorld).2.events =
      [Event.called (ApiCall.login []),
        Event.settled (ApiCall.login []) (Settled.rejected [("error", "no credentials")])] ∧
    calls (loginUser sampleApi [] sampleWorld).2.events = [ApiCall.login []] :=
  loginUser_login_rejected_no_profile sampleApi [] sampleWorld
    [("error", "no credentials")] false rfl

/-- C6: `loginUser` rejects with a reason exactly when `login` rejects with it,
or `login` is fulfilled and `profile` then rejects with it; a rejected
`loginUser` has written nothing to the console; and when both are fulfilled
`loginUser` is fulfilled and has written one console record, the result of
`login` followed by the result of `profile`. -/
theorem loginUser_rejects_iff {S V : Type} (api : Api S V) (user : V) (w : World S V) :
    (∀ reason, (loginUser api user w).1 = Completion.abrupt reason ↔
      ((api.login user w.remote).1 = Settled.rejected reason ∨
        (∃ response, (api.login user w.remote).1 = Settled.fulfilled response ∧
          (api.profile (api.login user w.remote).2).1 = Settled.rejected reason))) ∧
    (∀ reason, (loginUser api user w).1 = Completion.abrupt reason →
      logs (loginUser api user w).2.events = logs w.events) ∧
    (∀ response userInfo, (api.login user w.remote).1 = Settled.fulfilled response →
      (api.profile (api.login user w.remote).2).1 = Settled.fulfilled userInfo →
      (loginUser api user w).1 = Completion.normal () ∧
      logs (loginUser api user w).2.events =
        logs w.events ++ [[LogArg.value response, LogArg.value userInfo]]) := by
  rw [loginUser_eq]
  rcases api.login user w.remote with ⟨ol, s1⟩
  cases ol with
  | fulfilled response =>
    simp only []
    rcases api.profile s1 with ⟨op, s2⟩
    cases op <;> simp [logs_append, logs]
  | rejected e => simp [logs_append, logs]
  | pending => simp

/-- C6 at the sample API: with the sample credentials `loginUser` is fulfilled
and writes one record; with an empty payload it rejects with the reason of
`login` and writes nothing. -/
theorem loginUser_rejects_iff_witness :
    ((loginUser sampleApi sampleCredentials sampleWorld).1 = Completion.normal () ∧
      logs (loginUser sampleApi sampleCredentials sampleWorld).2.events =
        [[LogArg.value [("token", "t1")], LogArg.value [("name", "a")]]]) ∧
    (loginUser sampleApi [] sampleWorld).1 =
      Completion.abrupt [("error", "no credentials")] ∧
    logs (loginUser sampleApi [] sampleWorld).2.events = [] :=
  ⟨(loginUser_rejects_iff sampleApi sampleCredentials sampleWorld).2.2
      [("token", "t1")] [("name", "a")] rfl rfl,
    ((loginUser_rejects_iff sampleApi [] sampleWorld).1 [("error", "no credentials")]).2
      (Or.inl rfl),
    (loginUser_rejects_iff sampleApi [] sampleWorld).2.1 [("error", "no credentials")]
      (((loginUser_rejects_iff sampleApi [] sampleWorld).1 [("error", "no credentials")]).2
        (Or.inl rfl))⟩

/-- C7: `signupUser(p)` returns normally, writes one console record, which holds
the literal "Signing Up User:" and then `p`, makes no API call, and leaves the
component state, the URL path and the remote service as they were. -/
theorem signupUser_logs_only {S V : Type} (payload : V) (w : World S V) :
    (signupUser payload w).1 = Completion.normal () ∧
    (signupUser payload w).2.events =
      w.events ++ [Event.logged [LogArg.text "Signing Up User:", LogArg.value payload]] ∧
    calls (signupUser payload w).2.events = calls w.events ∧
    logs (signupUser payload w).2.events =
      logs w.events ++ [[LogArg.text "Signing Up User:", LogArg.value payload]] ∧
    (signupUser payload w).2.app = w.app ∧
    (signupUser payload w).2.remote = w.remote ∧
    (signupUser payload w).2.location = w.location := by
  rw [signupUser_eq]
  simp [calls_append, logs_append, calls, logs]

/-- C8: after the constructor `currentUserId` is absent; `render` passes to
`Navigation` exactly the `currentUserId` of the state; so `Navigation` receives
an absent value from the constructed state, from the application as mounted at
any URL path, and still after a call of `loginUser` there, however far that
call gets. -/
theorem navigation_observes_initial_absent {S V : Type} :
    (constructor : State V).currentUserId = none ∧
    (∀ state : State V, (render state).navigationCurrentUserId = state.currentUserId) ∧
    (render (constructor : State V)).navigationCurrentUserId = none ∧
    (∀ (remote : S) (pathname : String),
      (render (boot remote pathname : World S V).app).navigationCurrentUserId = none) ∧
    (∀ (api : Api S V) (user : V) (remote : S) (pathname : String),
      (render (loginUser api user (boot remote pathname)).2.app).navigationCurrentUserId =
        none) := by
  refine ⟨rfl, fun _ => rfl, rfl, ?_, ?_⟩
  · intro remote pathname
    rw [boot_app]
    rfl
  · intro api user remote pathname
    rw [(loginUser_app api user _).1, boot_app]
    rfl

/-- C9: neither handler writes the component state, whatever `login` and
`profile` do; hence after any sequence of navigations and form submissions from
the mounted application `currentUserId` is still absent. -/
theorem handlers_keep_state {S V : Type} (api : Api S V) :
    (∀ (user : V) (w : World S V), (loginUser api user w).2.app = w.app) ∧
    (∀ (payload : V) (w : World S V), (signupUser payload w).2.app = w.app) ∧
    (∀ (remote : S) (pathname : String) (actions : List (Action V)),
      (run api (boot remote pathname) actions).app.currentUserId = none) := by
  refine ⟨fun user w => (loginUser_app api user w).1, fun _ _ => rfl, ?_⟩
  intro remote pathname actions
  rw [run_app, boot_app]
  rfl

/-- C10: dispatching "/login" yields the Login view with `loginUser` as its
`onSubmit`; going to "/login" a second time leaves the application as it was
after the first time, at "/login" with the same view, and no redirect is
rendered. -/
theorem login_dispatch_idempotent {S V : Type} (w : World S V) :
    dispatch w.app "/login" = some (View.Login Handler.loginUser) ∧
    navigate "/login" (navigate "/login" w) = navigate "/login" w ∧
    (navigate "/login" w).location = "/login" ∧
    dispatch (navigate "/login" w).app (navigate "/login" w).location =
      some (View.Login Handler.loginUser) ∧
    dispatch (navigate "/login" (navigate "/login" w)).app
        (navigate "/login" (navigate "/login" w)).location =
      dispatch (navigate "/login" w).app (navigate "/login" w).location := by
  have hn : ∀ v : World S V, navigate "/login" v = { v with location := "/login" } := by
    intro v
    simp only [navigate, dispatch_login]
  refine ⟨dispatch_login _, ?_, ?_, ?_, ?_⟩
  · rw [hn, hn]
  · rw [hn]
  · rw [hn]
    exact dispatch_login _
  · rw [hn, hn]

end App
